import Mathlib

/-!
Shallow embedding of the xmk build tool (main source file, with the legacy
XMK.C consulted where the two versions diverge).  C strings are modelled as
`List Char` without the trailing NUL; reading past the end of a buffer
yields the NUL sentinel, matching the C termination convention.  Fallible
code returns `Except Err`; `Err.fatal` models `fatal_error` (which prints
and calls `exit(1)`), `Err.crash` models undefined behaviour such as a NULL
dereference or an out-of-bounds index, and `Err.fuel` marks exhaustion of
the fuel used to bound recursion that the C performs without a bound.
-/

inductive Err : Type where
  | fatal (msg : String)
  | crash
  | fuel
  deriving Repr, DecidableEq

instance {e a : Type} [DecidableEq e] [DecidableEq a] : DecidableEq (Except e a) :=
  fun x y =>
    match x, y with
    | .ok u, .ok v => if h : u = v then .isTrue (by rw [h]) else .isFalse (by simp [h])
    | .error u, .error v =>
      if h : u = v then .isTrue (by rw [h]) else .isFalse (by simp [h])
    | .ok _, .error _ => .isFalse (by simp)
    | .error _, .ok _ => .isFalse (by simp)

/-- Byte at index `i` of a NUL-terminated buffer: past the end we read the
NUL sentinel, exactly as the C code stops at the terminator. -/
def cAt (buf : List Char) (i : Nat) : Char :=
  buf.getD i '\x00'

/-- Model of `strlen`: number of characters before the first NUL. -/
def cstrlen (s : List Char) : Nat :=
  (s.takeWhile (fun c => c != '\x00')).length

/-- Model of `strncmp(a, b, n)`: compare at most `n` characters, stopping at
a NUL or at the first difference.  Only the zero/non-zero outcome is used by
the program. -/
def strncmp_c : List Char → List Char → Nat → Int
  | _, _, 0 => 0
  | a, b, n + 1 =>
    let ca := a.headD '\x00'
    let cb := b.headD '\x00'
    if ca ≠ cb then (ca.toNat : Int) - (cb.toNat : Int)
    else if ca = '\x00' then 0
    else strncmp_c a.tail b.tail n

/-- The keyword test from `check_rule` in the main source
(`!strncmp(word, keyword, len) && len == strlen(word)` with
`len = strlen(keyword)`).  The legacy XMK.C used only the prefix test
`!strncmp(word, keyword, strlen(keyword))`; the current source adds the
length equality. -/
def keyword_matches (word keyword : List Char) : Bool :=
  strncmp_c word keyword (cstrlen keyword) == 0 && cstrlen keyword == cstrlen word

/-! ## Data model

The process-global state of the program: the source buffer, the define
table, the build target, the current scope, and the per-rule mutable
`list`/`list_size` storage of `syntax_rules` (the target table and the
parallel dependency and command tables), plus a model of the file system,
of stdout (under a non-verbose configuration) and of the spawned commands.
-/

/-- File system model: existing files with their modification times. -/
abbrev FS := List (String × Nat)

/-- A file exists iff `fopen` succeeds: membership in the file list. -/
def file_exists (fs : FS) (f : String) : Bool :=
  (fs.lookup f).isSome

/-- Modification time of a file, when it exists. -/
def mtime (fs : FS) (f : String) : Option Nat :=
  fs.lookup f

structure XState where
  buffer : List Char
  line : Nat
  out : List String
  defNames : List String
  defValues : List String
  defN : Nat
  selected_i : Nat
  definePhase : Bool
  build_target : Option String
  current_scope : Option String
  targets : Option (List String)
  depLists : Option (List (Option (List String)))
  depSizes : Option (List Nat)
  cmdLists : Option (List (Option (List String)))
  cmdSizes : Option (List Nat)
  defsLists : Option (List (Option (List String)))
  defsSizes : Option (List Nat)
  buildLists : Option (List (Option (List String)))
  buildSizes : Option (List Nat)
  fs : FS
  trace : List String
  deriving Repr, DecidableEq

/-- The empty initial state over a given source buffer and file system. -/
def initState (src : String) (fs : FS) : XState :=
  { buffer := src.data, line := 1, out := [], defNames := [], defValues := [],
    defN := 0, selected_i := 0, definePhase := false, build_target := none,
    current_scope := none, targets := none, depLists := none, depSizes := none,
    cmdLists := none, cmdSizes := none, defsLists := none, defsSizes := none,
    buildLists := none, buildSizes := none, fs := fs, trace := [] }

/-- Model of `target_exists`: linear scan of the target table; when the
scope pointer is NULL or the table is unallocated it prints a notice to
stdout and reports failure. -/
def target_exists (st : XState) (target : Option String) : Option Nat × XState :=
  match target, st.targets with
  | some t, some ts => (ts.indexOf? t, st)
  | _, _ => (none, { st with out := st.out ++ ["No targets have been defined."] })

/-! ## `$(dep[N])` handling (`get_dependency`) -/

/-- Model of `strtol(s, NULL, 0)` restricted to the unsigned digit strings
this program produces: base auto-detection of a `0x`/`0X` or leading-`0`
prefix, otherwise decimal; an empty or non-numeric string yields 0. -/
def digit_val (base : Nat) (c : Char) : Option Nat :=
  if '0' ≤ c ∧ c ≤ '9' ∧ c.toNat - '0'.toNat < base then some (c.toNat - '0'.toNat)
  else if 10 < base ∧ 'a' ≤ c ∧ c ≤ 'f' then some (c.toNat - 'a'.toNat + 10)
  else if 10 < base ∧ 'A' ≤ c ∧ c ≤ 'F' then some (c.toNat - 'A'.toNat + 10)
  else none

def parse_digits (base : Nat) : List Char → Nat → Nat
  | [], acc => acc
  | c :: rest, acc =>
    match digit_val base c with
    | some d => parse_digits base rest (acc * base + d)
    | none => acc

def strtol_c : List Char → Nat
  | '0' :: 'x' :: rest => parse_digits 16 rest 0
  | '0' :: 'X' :: rest => parse_digits 16 rest 0
  | '0' :: rest => parse_digits 8 rest 0
  | s => parse_digits 10 s 0

inductive DepScan : Type where
  | OPENING_BRACKET
  | INDEX
  | CLOSING_BRACKET
  deriving Repr, DecidableEq

/-- The character loop of `get_dependency`: walks the word after the
`$(dep` prefix collecting index digits into the 8-byte zero-initialised
`dep_i_str` buffer.  The store is guarded by
`dep_i_str_idx < strlen(dep_i_str)`, which compares against the current
string length of the zero-filled buffer — 0 — so no digit is ever stored
(the legacy XMK.C guarded with the buffer capacity instead). -/
def dep_scan : List Char → DepScan → List Char → Nat → XState →
    Except Err (List Char × Nat × XState)
  | [], _, buf, idx, st => .ok (buf, idx, st)
  | c :: rest, scan, buf, idx, st =>
    match scan with
    | .OPENING_BRACKET =>
      dep_scan rest (if c = '[' then .INDEX else .OPENING_BRACKET) buf idx st
    | .INDEX =>
      if '0' ≤ c ∧ c ≤ '9' then
        let stored := if idx < cstrlen buf then (buf.set idx c, idx + 1) else (buf, idx)
        let lookahead := rest.headD '\x00'
        let st :=
          if lookahead = '\x00' then
            { st with out := st.out ++ ["Missing \"]\" character on dependency index"] }
          else st
        let scan : DepScan := if lookahead = ']' then .CLOSING_BRACKET else .INDEX
        dep_scan rest scan stored.1 stored.2 st
      else .error (.fatal "Invalid index")
    | .CLOSING_BRACKET => dep_scan rest .CLOSING_BRACKET buf idx st

/-- Model of `get_dependency`: scans the index of a `$(dep[N])` word,
converts it with `strtol` base 0, and resolves it against the current
scope's dependency list.  When the current scope is not in the target
table the word itself is returned unchanged. -/
def get_dependency (st : XState) (word : String) : Except Err (String × XState) := do
  let rest := word.data.drop (cstrlen "$(dep".data)
  let (buf, idx, st) ← dep_scan rest .OPENING_BRACKET (List.replicate 8 '\x00') 0 st
  let idx := idx + 1
  if _hw : idx < 8 then
    let buf := buf.set idx '\x00'
    let dep_index := strtol_c (buf.takeWhile (fun c => c != '\x00'))
    match target_exists st st.current_scope with
    | (some i, st) =>
      match st.depLists, st.depSizes with
      | some dls, some dss =>
        if hd : i < dss.length then
          let target_deps := dss.get ⟨i, hd⟩
          if target_deps = 0 then
            .error (.fatal "No dependencies are available for target")
          else if dep_index < target_deps then
            if hl : i < dls.length then
              match dls.get ⟨i, hl⟩ with
              | some entry =>
                if he : dep_index < entry.length then .ok (entry.get ⟨dep_index, he⟩, st)
                else .error .crash
              | none => .error .crash
            else .error .crash
          else .error (.fatal "Index exceeds number of defined dependencies")
        else .error .crash
      | _, _ => .error (.fatal "Dependencies list has not been allocated")
    | (none, st) => .ok (word, st)
  else .error .crash

/-! ## Freshness check (`update_needed`) -/

inductive Platform : Type where
  | win32
  | posix
  deriving Repr, DecidableEq

/-- The WIN32 `update_needed`: starts from `ret = true`; when both files
open successfully and both timestamps are readable, compares them with a
strict `>`; any missing file (or an unallocated target table) leaves
`ret = true`. -/
def update_needed_win32 (targetsAllocated : Bool) (fs : FS) (target dep : String) : Bool :=
  if targetsAllocated then
    match mtime fs target, mtime fs dep with
    | some target_time, some dep_time => decide (dep_time > target_time)
    | _, _ => true
  else true

/-- The POSIX `update_needed`: the body is a `TODO` stub returning `true`
unconditionally. -/
def update_needed_posix (_target _dep : String) : Bool :=
  true

def update_needed (p : Platform) (targetsAllocated : Bool) (fs : FS)
    (target dep : String) : Bool :=
  match p with
  | .win32 => update_needed_win32 targetsAllocated fs target dep
  | .posix => update_needed_posix target dep

/-! ## Resolver and executor -/

/-- The external process-spawn primitive (`build()` / the host shell):
given a command line and the current file system, returns the exit status
and the resulting file system. -/
structure Sys where
  run : String → FS → Int × FS

/-- The command loop of `ex_build_target`: for each index below
`target_commands`, echo the command to stdout (unless quiet), hand it to
the host shell, and abort fatally on a non-zero exit status.  Reading a
command slot that was never allocated is undefined behaviour (`crash`).
The `free(command)` after the spawn releases the heap block but leaves the
table pointer in place, so it has no observable effect here. -/
def cmd_loop (sys : Sys) (quiet : Bool)
    (cls : Option (List (Option (List String)))) (idx : Nat) :
    Nat → Nat → FS → List String → List String →
    Except Err (FS × List String × List String)
  | 0, _, fs, out, trace => .ok (fs, out, trace)
  | r + 1, i, fs, out, trace =>
    match cls with
    | none => .error .crash
    | some cl =>
      if hl : idx < cl.length then
        match cl.get ⟨idx, hl⟩ with
        | none => .error .crash
        | some entry =>
          if he : i < entry.length then
            let command := entry.get ⟨i, he⟩
            let out := if quiet then out else out ++ [command]
            let rr := sys.run command fs
            let trace := trace ++ [command]
            if rr.1 ≠ 0 then .error (.fatal "Error")
            else cmd_loop sys quiet cls idx r (i + 1) rr.2 out trace
          else .error .crash
      else .error .crash

/-- The dependency loop of `ex_build_target`, parameterised by the
recursive entry `recur` (the `execute_commands` call): for each dependency
slot, recursively execute it (letting the callee overwrite
`update_pending` through the out-pointer, exactly as the C does), then OR
in the result of `update_needed` for this target/dependency pair. -/
def dep_loop (recur : XState → String → Except Err (Int × Option Bool × XState))
    (p : Platform) (target : String) (idx : Nat) :
    Nat → Nat → Bool → XState → Except Err (Bool × XState)
  | 0, _, up, st => .ok (up, st)
  | r + 1, dep, up, st =>
    match st.depLists with
    | none => .error .crash
    | some dls =>
      if hl : idx < dls.length then
        match dls.get ⟨idx, hl⟩ with
        | none => .error .crash
        | some entry =>
          if he : dep < entry.length then
            let dependency := entry.get ⟨dep, he⟩
            match recur st dependency with
            | .error e => .error e
            | .ok (_r, pup, st) =>
              let up := pup.getD up
              let up :=
                if !(update_needed p st.targets.isSome st.fs target dependency) then up
                else if !up then true else up
              dep_loop recur p target idx r (dep + 1) up st
          else .error .crash
      else .error .crash

/-- Model of `ex_build_target` (parameterised by the recursive
`execute_commands` entry): compute `update_pending` from the absence of
the target file and from the dependency walk, then, if pending, run the
command list and require the target file to exist afterwards.  The
function returns 1 on every path that does not abort. -/
def ex_build_target (recur : XState → String → Except Err (Int × Option Bool × XState))
    (sys : Sys) (p : Platform) (quiet : Bool)
    (st : XState) (target : String) (idx : Nat) :
    Except Err (Int × Bool × XState) :=
  let phase1 : Except Err (Bool × XState) :=
    match st.cmdSizes with
    | some css =>
      if hc : idx < css.length then
        let n_commands := css.get ⟨idx, hc⟩
        let up := !(file_exists st.fs target)
        match st.depLists, st.depSizes with
        | some _dls, some dss =>
          if hd : idx < dss.length then
            let target_deps := dss.get ⟨idx, hd⟩
            if target_deps = 0 ∧ n_commands = 0 then
              .error (.fatal "No build steps or dependencies have been indicated for target")
            else
              dep_loop recur p target idx target_deps 0 up st
          else .error .crash
        | _, _ => .ok (up, st)
      else .error .crash
    | none => .ok (false, st)
  match phase1 with
  | .error e => .error e
  | .ok (up, st) =>
    if up then
      match st.cmdSizes with
      | none => .error .crash
      | some css =>
        if hc : idx < css.length then
          let target_commands := css.get ⟨idx, hc⟩
          match cmd_loop sys quiet st.cmdLists idx target_commands 0 st.fs st.out st.trace with
          | .error e => .error e
          | .ok (fs, out, trace) =>
            let st := { st with fs := fs, out := out, trace := trace }
            if !(file_exists st.fs target) then
              .error (.fatal "Commands executed were successful, but file has not been generated")
            else .ok (1, up, st)
        else .error .crash
    else .ok (1, up, st)

/-- Model of `execute_commands`: dispatch on whether the name is a known
target; unknown names must exist as files, in which case the function
returns 0 without touching `*parent_update_pending` (`cleanup()` is an
immediate `return`).  The result triple is (return value, the value
written through `parent_update_pending` if any, new state).  `fuel`
bounds the recursion over the dependency graph, which the C performs on
the call stack assuming acyclicity. -/
def execute_commands (sys : Sys) (p : Platform) (quiet : Bool) :
    Nat → XState → String → Except Err (Int × Option Bool × XState)
  | 0, _st, _target => .error .fuel
  | fuel + 1, st, target =>
    match target_exists st (some target) with
    | (some i, st) =>
      match ex_build_target (fun st t => execute_commands sys p quiet fuel st t)
          sys p quiet st target i with
      | .ok (r, up, st) => .ok (r, some up, st)
      | .error e => .error e
    | (none, st) =>
      if !(file_exists st.fs target) then
        .error (.fatal "Target could not be found on target list")
      else
        .ok (0, none, st)

/-! ## Tokenizer (`get_word` and helpers) -/

/-- Model of `strstr(hay, needle) != NULL`: `list_starts needle suffix`
holds of some suffix of `hay`. -/
def list_starts : List Char → List Char → Bool
  | [], _ => true
  | _ :: _, [] => false
  | a :: as, b :: bs => a == b && list_starts as bs

def strstr_c : List Char → List Char → Bool
  | [], needle => list_starts needle []
  | h :: t, needle => list_starts needle (h :: t) || strstr_c t needle

/-- Model of `get_basename`: the portion of the word before the first dot. -/
def get_basename (word : String) : String :=
  String.mk (word.data.takeWhile (fun c => c ≠ '.'))

/-- Model of `get_extension`: skip to the first dot; if a character follows
it, also skip the dot itself (so a trailing dot yields `"."` and a word
without dots yields `""`). -/
def get_extension (word : String) : String :=
  let w := word.data.dropWhile (fun c => c ≠ '.')
  String.mk (if 1 < w.length then w.tail else w)

/-- Model of `is_define`: index of the first define whose name equals the
word (scanning the `defines.n` complete pairs); a hit sets `selected_i`. -/
def is_define (st : XState) (name : String) : Option Nat :=
  (st.defNames.take st.defN).indexOf? name

/-- Model of `expand_define`: splice the selected define's value over the
`wordLen` bytes at offset `from_` of the buffer.  When the define is the
last thing in the buffer (`*after == '\0'`) the C function returns NULL,
modelled as `none`. -/
def expand_define (st : XState) (from_ wordLen : Nat) :
    Except Err (Option (List Char)) :=
  if cAt st.buffer (from_ + wordLen) = '\x00' then .ok none
  else
    match st.defValues.get? st.selected_i with
    | none => .error .crash
    | some value =>
      .ok (some (st.buffer.take from_ ++ value.data ++
        ((st.buffer.drop (from_ + wordLen)).takeWhile (fun c => c != '\x00'))))

/-- The body of `skip_ws`, structurally recursive on the buffer suffix. -/
def skip_go : List Char → Nat → Nat → Bool → Bool → Option Nat × Nat × Bool
  | [], _, line, nl, _ => (none, line, nl)
  | ch :: rest, from_, line, nl, comment =>
    if ch = '\x00' then (none, line, nl)
    else if ch = '#' then skip_go rest (from_ + 1) line nl true
    else if ch = '\n' then skip_go rest (from_ + 1) (line + 1) true false
    else if ch = '\r' ∨ ch = '\t' ∨ ch = ' ' then skip_go rest (from_ + 1) line nl comment
    else if comment then skip_go rest (from_ + 1) line nl comment
    else (some from_, line, nl)

/-- The whitespace/comment-skipping loop at the top of `get_word`, walking
the buffer suffix at `from_` (the NUL sentinel is the end of the list or
an embedded NUL).  Returns the position of the first word character
together with the updated line counter and newline flag, or `none` at the
sentinel. -/
def skip_ws (buf : List Char) (from_ line : Nat) (nl comment : Bool) :
    Option Nat × Nat × Bool :=
  skip_go (buf.drop from_) from_ line nl comment

/-- The character-collecting loop of `get_word`: copy characters until a
delimiter (`"` when quoted, whitespace otherwise) or until the 254-byte
bound of the static word buffer; past the end of the buffer the C keeps
reading NUL-free memory, modelled as an endless supply of NUL bytes (NUL
is not a delimiter, so such a runaway word always hits the 254 bound).
`k` counts down from `254 - i`; returns the collected characters, the
final count `i` and the final cursor. -/
def scan_go (quotes : Bool) :
    Nat → List Char → Nat → Nat → List Char → List Char × Nat × Nat
  | 0, _, from_, i, acc => (acc, i, from_)
  | k + 1, rest, from_, i, acc =>
    let ch := rest.headD '\x00'
    let word_char : Bool :=
      if quotes then ch != '\"'
      else ch != ' ' && ch != '\t' && ch != '\n' && ch != '\r'
    if word_char then scan_go quotes k rest.tail (from_ + 1) (i + 1) (acc ++ [ch])
    else (acc, i, from_)

def scan_word (buf : List Char) (quotes : Bool) (from_ i : Nat) (acc : List Char) :
    List Char × Nat × Nat :=
  scan_go quotes (254 - i) (buf.drop from_) from_ i acc

/-- Model of `get_word`: skip whitespace and comments, collect one word
(with the 254-byte bound), then perform `$`-substitution: `$$` escape,
`$(target)`/`$(target_name)`/`$(target_ext)`/`$(dep[...])` builtins, or
define expansion, which rewrites the buffer and retokenizes from the start
of the word (`fuel` bounds this recursion, which the C performs on the
call stack).  Returns the word, the new cursor and the newline flag, or
`none` at end of input. -/
def get_word (fuel : Nat) (st : XState) (from_ : Nat) :
    Except Err (Option (String × Nat × Bool) × XState) :=
  match fuel with
  | 0 => .error .fuel
  | fuel + 1 =>
    match skip_ws st.buffer from_ st.line false false with
    | (none, line, _) => .ok (none, { st with line := line })
    | (some wstart, line, nl) =>
      let st := { st with line := line }
      let orig_from := wstart
      let quotes := cAt st.buffer wstart = '\"'
      let from1 := if quotes then wstart + 1 else wstart
      let (acc, i, from2) := scan_word st.buffer quotes from1 0 []
      if i ≥ 254 then .error (.fatal "maximum word length has been exceeded")
      else
        let st := if cAt st.buffer from2 = '\n' then { st with line := st.line + 1 } else st
        let from3 := if quotes then from2 + 1 else from2
        let acc := acc.takeWhile (fun c => c != '\x00')
        let word := String.mk acc
        if !quotes ∧ 1 < acc.length then
          if cAt acc 0 = '$' then
            if cAt acc 1 = '$' then .ok (some (String.mk acc.tail, from3, nl), st)
            else if cAt acc 1 = '(' then
              if word = "$(target)" then
                match st.current_scope with
                | some cs => .ok (some (cs, from3, nl), st)
                | none => .error (.fatal "$(target) must be used inside target scope")
              else if word = "$(target_name)" then
                match st.current_scope with
                | some cs => .ok (some (get_basename cs, from3, nl), st)
                | none => .error (.fatal "$(target_name) must be used inside target scope")
              else if word = "$(target_ext)" then
                match st.current_scope with
                | some cs => .ok (some (get_extension cs, from3, nl), st)
                | none => .error (.fatal "$(target_ext) must be used inside target scope")
              else if strstr_c acc "$(dep".data then
                match get_dependency st word with
                | .ok (w, st) => .ok (some (w, from3, nl), st)
                | .error e => .error e
              else .ok (some (word, from3, nl), st)
            else
              match is_define st (String.mk acc.tail) with
              | some idx =>
                let st := { st with selected_i := idx }
                match expand_define st orig_from acc.length with
                | .error e => .error e
                | .ok none => .error (.fatal "Invalid given pointers")
                | .ok (some buf) => get_word fuel { st with buffer := buf } orig_from
              | none => .error (.fatal "Undefined symbol")
          else .ok (some (word, from3, nl), st)
        else if !quotes ∧ acc.headD 'x' = '$' then
          .error (.fatal "Expected symbol after escaped $ symbol")
        else .ok (some (word, from3, nl), st)

/-! ## Rule engine (`check_rule`, `scope`, `handle_list`, callbacks) -/

inductive ParseSt : Type where
  | SEARCHING
  | CHECKING
  deriving Repr, DecidableEq

inductive RuleId : Type where
  | DEFINE_AS
  | BUILD
  | DEPENDS_ON
  | CREATED_USING
  | TARGET
  deriving Repr, DecidableEq

inductive Step : Type where
  | KEYWORD
  | SYMBOL
  | LIST
  | NESTED_RULE
  | END
  deriving Repr, DecidableEq

/-- The static keyword tables of `syntax_rules`. -/
def rule_keywords : RuleId → List String
  | .BUILD => ["build"]
  | .TARGET => ["target"]
  | .DEFINE_AS => ["define", "as"]
  | .CREATED_USING => ["created", "using"]
  | .DEPENDS_ON => ["depends", "on"]

/-- The static recipe tables of `syntax_rules`. -/
def rule_recipes : RuleId → List (List Step)
  | .BUILD => [[.KEYWORD, .SYMBOL, .END]]
  | .TARGET => [[.KEYWORD, .SYMBOL, .NESTED_RULE, .END]]
  | .DEFINE_AS => [[.KEYWORD, .SYMBOL, .KEYWORD, .SYMBOL, .END],
                   [.KEYWORD, .LIST, .KEYWORD, .SYMBOL, .END]]
  | .CREATED_USING => [[.KEYWORD, .KEYWORD, .LIST, .END]]
  | .DEPENDS_ON => [[.KEYWORD, .KEYWORD, .LIST, .END]]

/-- Iteration order of the `foreach` over `syntax_rules`: array index
order, i.e. the declaration order of `enum rule`. -/
def rule_order : List RuleId :=
  [.DEFINE_AS, .BUILD, .DEPENDS_ON, .CREATED_USING, .TARGET]

/-- The static parser counters of `check_rule`: `step_i`, `keyword_i` and
`recipe_i` are two-element arrays indexed by `recursion_level`; they are
shared by all rules. -/
structure Ctrl where
  step_i : Nat × Nat
  keyword_i : Nat × Nat
  recipe_i : Nat × Nat
  recursion_level : Nat
  deriving Repr, DecidableEq

def ctrl0 : Ctrl := ⟨(0, 0), (0, 0), (0, 0), 0⟩

/-- Read slot `i` of a two-element static array; any other index is an
out-of-bounds access. -/
def idx2 (p : Nat × Nat) : Nat → Except Err Nat
  | 0 => .ok p.1
  | 1 => .ok p.2
  | _ => .error .crash

def set2 (p : Nat × Nat) (v : Nat) : Nat → Except Err (Nat × Nat)
  | 0 => .ok (v, p.2)
  | 1 => .ok (p.1, v)
  | _ => .error .crash

/-- Zero the three counters at the current recursion level
(`step_i[recursion_level] = 0; ...`). -/
def reset_level (c : Ctrl) : Except Err Ctrl := do
  let s ← set2 c.step_i 0 c.recursion_level
  let k ← set2 c.keyword_i 0 c.recursion_level
  let r ← set2 c.recipe_i 0 c.recursion_level
  .ok { c with step_i := s, keyword_i := k, recipe_i := r }

/-- Model of `set_build_target`: at most one `build` directive. -/
def set_build_target (st : XState) (t : String) : Except Err XState :=
  match st.build_target with
  | none => .ok { st with build_target := some t }
  | some _ => .error (.fatal "Only one target can be defined")

/-- Model of `add_target`: reject duplicates, then append to the target
table (allocating it on first use). -/
def add_target (st : XState) (t : String) : Except Err XState :=
  match st.targets with
  | some ts =>
    if ts.contains t then .error (.fatal "Target has already been defined")
    else .ok { st with targets := some (ts ++ [t]) }
  | none => .ok { st with targets := some [t] }

/-- Model of `add_define` with its static GET_NAME/GET_VALUE phase toggle:
a name is written at slot `defines.n`, the following value completes the
pair and increments `defines.n`. -/
def add_define (st : XState) (w : String) : XState :=
  if !st.definePhase then
    { st with defNames := st.defNames.take st.defN ++ [w], definePhase := true }
  else
    { st with defValues := (st.defValues.take st.defN) ++ [w],
              definePhase := false,
              defN := st.defN + 1 }

/-- Model of `add_symbol`: dispatch on the rule's `symbol_callback`. -/
def add_symbol (rule : RuleId) (st : XState) (w : String) : Except Err XState :=
  match rule with
  | .BUILD => set_build_target st w
  | .TARGET => add_target st w
  | .DEFINE_AS => .ok (add_define st w)
  | .DEPENDS_ON => .ok st
  | .CREATED_USING => .ok st

/-- Grow a rule's parallel `list`/`list_size` arrays to `n` slots and clear
the newest slot, following `create_basic_tree`: a first allocation is a
single zeroed slot; an established pair is `realloc`ed to `n` and slot
`n - 1` is reset; a half-allocated pair is left untouched. -/
def create_basic_tree_on (lists : Option (List (Option (List String))))
    (sizes : Option (List Nat)) (n : Nat) :
    Option (List (Option (List String))) × Option (List Nat) :=
  match lists, sizes with
  | none, none => (some [none], some [0])
  | some ls, some ss =>
    let ls := ((ls ++ List.replicate (n - ls.length) none).take n).set (n - 1) none
    let ss := ((ss ++ List.replicate (n - ss.length) 0).take n).set (n - 1) 0
    (some ls, some ss)
  | ls, ss => (ls, ss)

/-- Model of `create_basic_tree`: record the newest target as the current
scope and size the given rule's dependency storage to the target count. -/
def create_basic_tree (st : XState) (rule : RuleId) : Except Err XState :=
  match st.targets with
  | none => .error .crash
  | some ts =>
    if hn : ts.length = 0 then .error .crash
    else
      let name := ts.get ⟨ts.length - 1, by omega⟩
      let st := { st with current_scope := some name }
      match rule with
      | .DEPENDS_ON =>
        let (l, s) := create_basic_tree_on st.depLists st.depSizes ts.length
        .ok { st with depLists := l, depSizes := s }
      | .CREATED_USING =>
        let (l, s) := create_basic_tree_on st.cmdLists st.cmdSizes ts.length
        .ok { st with cmdLists := l, cmdSizes := s }
      | _ => .error .crash

/-- Model of `target_scope_block_opened`: initialise the dependency and
command tables for the newest target and continue in CHECKING state. -/
def target_scope_block_opened (st : XState) : Except Err (ParseSt × XState) := do
  let st ← create_basic_tree st .DEPENDS_ON
  let st ← create_basic_tree st .CREATED_USING
  .ok (.CHECKING, st)

/-- The `scope_block_opened` callbacks of the rule table. -/
def scope_block_opened (rule : RuleId) :
    Option (XState → Except Err (ParseSt × XState)) :=
  match rule with
  | .TARGET => some target_scope_block_opened
  | .DEPENDS_ON => some (fun st => .ok (.CHECKING, st))
  | .CREATED_USING => some (fun st => .ok (.CHECKING, st))
  | _ => none

/-- Model of `scope`: handle a one-character `{` or `}` word; `{` fires
the rule's callback (fatal if it has none), `}` returns to SEARCHING. -/
def scope (rule : RuleId) (word : String) (ps : ParseSt) (st : XState) :
    Except Err (Bool × ParseSt × XState) :=
  if word.length = 1 then
    if word = "\x7b" then
      match scope_block_opened rule with
      | some cb => do
        let (ps, st) ← cb st
        .ok (true, ps, st)
      | none => .error (.fatal "Keyword does not accept scope block")
    else if word = "\x7d" then .ok (true, .SEARCHING, st)
    else .ok (false, ps, st)
  else .ok (false, ps, st)

/-- The per-rule mutable `list`/`list_size` pair. -/
def get_store (st : XState) (rule : RuleId) :
    Option (List (Option (List String))) × Option (List Nat) :=
  match rule with
  | .DEPENDS_ON => (st.depLists, st.depSizes)
  | .CREATED_USING => (st.cmdLists, st.cmdSizes)
  | .DEFINE_AS => (st.defsLists, st.defsSizes)
  | .BUILD => (st.buildLists, st.buildSizes)
  | .TARGET => (none, none)

def set_store (st : XState) (rule : RuleId)
    (l : Option (List (Option (List String)))) (s : Option (List Nat)) : XState :=
  match rule with
  | .DEPENDS_ON => { st with depLists := l, depSizes := s }
  | .CREATED_USING => { st with cmdLists := l, cmdSizes := s }
  | .DEFINE_AS => { st with defsLists := l, defsSizes := s }
  | .BUILD => { st with buildLists := l, buildSizes := s }
  | .TARGET => st

/-- Model of `handle_list`: a `{`/`}` is delegated to `scope`; otherwise
the token is stored under the current target index — first into a fresh
allocation, on a newline as a new entry, and otherwise appended to the
last entry with a separating space.  `current_target` dereferences the
target counter, so an unallocated or empty target table is undefined
behaviour.  (`TARGET` never reaches this code: no TARGET recipe has a
LIST step.) -/
def handle_list (rule : RuleId) (word : String) (ps : ParseSt)
    (nl : Bool) (st : XState) : Except Err (Bool × ParseSt × XState) :=
  match st.targets with
  | none => .error .crash
  | some ts =>
    if ts.length = 0 then .error .crash
    else
      let ct := ts.length - 1
      match scope rule word ps st with
      | .error e => .error e
      | .ok (true, ps, st) => .ok (true, ps, st)
      | .ok (false, ps, st) =>
        match get_store st rule with
        | (none, sizes) =>
          match sizes with
          | some ss =>
            if hct : ct < ss.length then
              .ok (true, ps,
                set_store st rule (some [some [word]])
                  (some (ss.set ct (ss.get ⟨ct, hct⟩ + 1))))
            else .error .crash
          | none => .error (.fatal "Some error has been detected")
        | (some ls, sizes) =>
          if hct : ct < ls.length then
            match ls.get ⟨ct, hct⟩ with
            | none =>
              match sizes with
              | some ss =>
                if hs : ct < ss.length then
                  .ok (true, ps,
                    set_store st rule (some (ls.set ct (some [word])))
                      (some (ss.set ct (ss.get ⟨ct, hs⟩ + 1))))
                else .error .crash
              | none => .error .crash
            | some entry =>
              if nl then
                match sizes with
                | some ss =>
                  if hs : ct < ss.length then
                    let new_length := ss.get ⟨ct, hs⟩ + 1
                    let entry :=
                      (((entry ++ List.replicate (new_length - entry.length) "").take
                        new_length).set (new_length - 1) word)
                    .ok (true, ps,
                      set_store st rule (some (ls.set ct (some entry)))
                        (some (ss.set ct new_length)))
                  else .error .crash
                | none => .error .crash
              else
                match sizes with
                | some ss =>
                  if hs : ct < ss.length then
                    let sz := ss.get ⟨ct, hs⟩
                    if sz = 0 then .error .crash
                    else if he : sz - 1 < entry.length then
                      let cell := entry.get ⟨sz - 1, he⟩
                      .ok (true, ps,
                        set_store st rule
                          (some (ls.set ct (some (entry.set (sz - 1)
                            (cell ++ " " ++ word))))) sizes)
                    else .error .crash
                  else .error .crash
                | none => .error (.fatal "Some error has been detected")
          else .error .crash

/-! ## `check_rule` and the parser driver -/

/-- The body of `check_rule`, with the alternative-recipe retry
(`recipe_i[recursion_level]++; return check_rule(...)`) unrolled into the
explicit recipe index `ri`, which always mirrors
`recipe_i[recursion_level]`.  Returns whether the rule claimed the word,
together with the new parse state, counters and program state. -/
def check_rule_go (rule : RuleId) (word : String) (nl : Bool) :
    Nat → ParseSt → Ctrl → XState → Nat →
    Except Err (Bool × ParseSt × Ctrl × XState)
  | 0, _, _, _, _ => .error .fuel
  | fuelR + 1, ps, ctrl, st, ri =>
  let lvl := ctrl.recursion_level
  match (rule_recipes rule).get? ri with
  | none =>
    match reset_level ctrl with
    | .error e => .error e
    | .ok ctrl => .ok (false, .SEARCHING, ctrl, st)
  | some recipe =>
    match idx2 ctrl.step_i lvl with
    | .error e => .error e
    | .ok si =>
      match recipe.get? si with
      | none => .error .crash
      | some step =>
        match step with
        | .KEYWORD =>
          match idx2 ctrl.keyword_i lvl with
          | .error e => .error e
          | .ok ki =>
            match (rule_keywords rule).get? ki with
            | none =>
              match reset_level ctrl with
              | .error e => .error e
              | .ok ctrl => .ok (false, .SEARCHING, ctrl, st)
            | some kw =>
              if keyword_matches word.data kw.data then
                match set2 ctrl.step_i (si + 1) lvl, set2 ctrl.keyword_i (ki + 1) lvl with
                | .ok s, .ok k =>
                  let ctrl := { ctrl with step_i := s, keyword_i := k }
                  match recipe.get? (si + 1) with
                  | none => .error .crash
                  | some next =>
                    if next = .END then
                      match reset_level ctrl with
                      | .error e => .error e
                      | .ok ctrl =>
                        let ctrl :=
                          if ctrl.recursion_level ≠ 0 then
                            { ctrl with recursion_level := ctrl.recursion_level - 1 }
                          else ctrl
                        .ok (true, .SEARCHING, ctrl, st)
                    else .ok (true, .CHECKING, ctrl, st)
                | _, _ => .error .crash
              else if word = "\x7d" then
                let ctrl :=
                  if lvl ≠ 0 then { ctrl with recursion_level := lvl - 1 } else ctrl
                match reset_level ctrl with
                | .error e => .error e
                | .ok ctrl => .ok (false, .SEARCHING, ctrl, st)
              else
                match set2 ctrl.recipe_i (ri + 1) lvl with
                | .error e => .error e
                | .ok r =>
                  check_rule_go rule word nl fuelR ps { ctrl with recipe_i := r } st (ri + 1)
        | .SYMBOL =>
          match add_symbol rule st word with
          | .error e => .error e
          | .ok st =>
            match set2 ctrl.step_i (si + 1) lvl with
            | .error e => .error e
            | .ok s =>
              let ctrl := { ctrl with step_i := s }
              match recipe.get? (si + 1) with
              | none => .error .crash
              | some next =>
                if next = .END then
                  match reset_level ctrl with
                  | .error e => .error e
                  | .ok ctrl =>
                    let ctrl :=
                      if ctrl.recursion_level ≠ 0 then
                        { ctrl with recursion_level := ctrl.recursion_level - 1 }
                      else ctrl
                    .ok (true, .SEARCHING, ctrl, st)
                else .ok (true, .CHECKING, ctrl, st)
        | .NESTED_RULE =>
          let ctrl :=
            if lvl < 2 then { ctrl with recursion_level := lvl + 1 } else ctrl
          match scope rule word ps st with
          | .error e => .error e
          | .ok (_matched, _ps, st) => .ok (true, .SEARCHING, ctrl, st)
        | .LIST =>
          match handle_list rule word ps nl st with
          | .error e => .error e
          | .ok (true, ps, st) => .ok (true, ps, ctrl, st)
          | .ok (false, _ps, st) =>
            match reset_level ctrl with
            | .error e => .error e
            | .ok ctrl => .ok (false, .SEARCHING, ctrl, st)
        | .END =>
          match reset_level ctrl with
          | .error e => .error e
          | .ok ctrl =>
            let ctrl :=
              if ctrl.recursion_level ≠ 0 then
                { ctrl with recursion_level := ctrl.recursion_level - 1 }
              else ctrl
            .ok (true, .SEARCHING, ctrl, st)

/-- Model of `check_rule`: run `check_rule_go` from the current
`recipe_i[recursion_level]`; the structural bound covers every possible
retry (`recipe_i` grows strictly until the recipe table is exhausted). -/
def check_rule (rule : RuleId) (word : String) (nl : Bool)
    (ps : ParseSt) (ctrl : Ctrl) (st : XState) :
    Except Err (Bool × ParseSt × Ctrl × XState) :=
  match idx2 ctrl.recipe_i ctrl.recursion_level with
  | .error e => .error e
  | .ok ri => check_rule_go rule word nl ((rule_recipes rule).length + 1) ps ctrl st ri

/-- The SEARCHING dispatch of `check_syntax`: try each rule in table order
until one claims the word; the static counters and the program state are
threaded through failed attempts exactly as the shared C statics are. -/
def search_step : List RuleId → String → Bool → ParseSt → Ctrl → XState →
    Except Err (Option RuleId × ParseSt × Ctrl × XState)
  | [], _, _, ps, ctrl, st => .ok (none, ps, ctrl, st)
  | r :: rest, word, nl, ps, ctrl, st =>
    match check_rule r word nl ps ctrl st with
    | .error e => .error e
    | .ok (true, ps, ctrl, st) => .ok (some r, ps, ctrl, st)
    | .ok (false, ps, ctrl, st) => search_step rest word nl ps ctrl st

/-- The word loop of `check_syntax`.  `rc` is the `rule_checking`
variable; it is only read in CHECKING state, which is always preceded by a
claim that sets it. -/
def check_syn_go : Nat → ParseSt → RuleId → Ctrl → XState → Nat →
    Except Err (XState × Int)
  | 0, _, _, _, _, _ => .error .fuel
  | f + 1, ps, rc, ctrl, st, from_ =>
    match get_word (f + 1) st from_ with
    | .error e => .error e
    | .ok (none, st) => .ok (st, 0)
    | .ok (some (word, from', nl), st) =>
      match ps with
      | .SEARCHING =>
        match search_step rule_order word nl ps ctrl st with
        | .error e => .error e
        | .ok (claimed, ps, ctrl, st) =>
          check_syn_go f ps (claimed.getD rc) ctrl st from'
      | .CHECKING =>
        match check_rule rc word nl ps ctrl st with
        | .error e => .error e
        | .ok (_b, ps, ctrl, st) => check_syn_go f ps rc ctrl st from'

/-- Model of `check_syntax`: scan the whole buffer from offset 0; the
function returns 0 whenever it returns at all. -/
def check_syn (fuel : Nat) (st : XState) : Except Err (XState × Int) :=
  check_syn_go fuel .SEARCHING .DEFINE_AS ctrl0 st 0

/-! ## `parse_file` and the program entry -/

structure Config where
  preprocess : Bool
  verbose : Bool
  extra_verbose : Bool
  quiet : Bool
  deriving Repr, DecidableEq

/-- `printf("%s", file_buffer)`: the buffer up to its NUL sentinel. -/
def buf_string (b : List Char) : String :=
  String.mk (b.takeWhile (fun c => c != '\x00'))

/-- Model of `parse_file`: run the syntax check (which performs all macro
expansion in the buffer); with `preprocess_only` print the buffer and
return 0; otherwise free the buffer and hand the build target to the
executor, whose return value becomes the result.  A missing build target
is fatal. -/
def parse_file (cfg : Config) (sys : Sys) (p : Platform) (fuel : Nat)
    (st : XState) : Except Err (XState × Int) :=
  match check_syn fuel st with
  | .error e => .error e
  | .ok (st, result) =>
    if cfg.preprocess then
      .ok ({ st with out := st.out ++ [buf_string st.buffer] }, 0)
    else
      let st := { st with buffer := [] }
      if result = 0 then
        match st.build_target with
        | some bt =>
          match execute_commands sys p cfg.quiet fuel st bt with
          | .error e => .error e
          | .ok (code, _pup, st) => .ok (st, code)
        | none =>
          .error (.fatal "No build target has not been defined")
      else .ok (st, 1)

/-- The whole run after a successful file read: `main` returns
`exec(&config)`, which is `parse_file()`'s value; that value is the
process exit code. -/
def xmk_run (cfg : Config) (sys : Sys) (p : Platform) (fuel : Nat)
    (src : String) (fs : FS) : Except Err (XState × Int) :=
  parse_file cfg sys p fuel (initState src fs)

/-! ## Concrete instances used by the claim theorems and witnesses -/

def cfg_plain : Config := ⟨false, false, false, false⟩

def cfg_pre : Config := ⟨true, false, false, false⟩

/-- A shell in which every command fails: preprocessing must never reach it. -/
def sys_none : Sys := { run := fun _ fs => (1, fs) }

/-- The minimal-build program of the spec's first end-to-end scenario. -/
def prog_min : String :=
  "build out\ntarget out { depends on { in } created using { touchout } }\n"

/-- A shell for `prog_min`: `touchout` succeeds and creates `out`. -/
def sys_min : Sys :=
  { run := fun c fs => if c = "touchout" then (0, ("out", 5) :: fs) else (1, fs) }

/-- A program with one define use (`$A`) for the preprocess claim. -/
def prog_def : String := "define A as bc\nbuild $A\n"

/-- A program whose last target header is never followed by its block:
`A`'s block is entered and closed, then `B` is registered. -/
def prog_hdr : String := "target A { } target B\n"

/-- Post-parse tables of a diamond dependency graph: `A` depends on `B`
and `C`, which both depend on `D`; `D` depends on the plain file
`d.src`. -/
def st_diamond : XState :=
  { initState "" [("d.src", 1)] with
    targets := some ["A", "B", "C", "D"],
    depLists := some [some ["B", "C"], some ["D"], some ["D"], some ["d.src"]],
    depSizes := some [2, 1, 1, 1],
    cmdLists := some [some ["make_a"], some ["make_b"], some ["make_c"], some ["make_d"]],
    cmdSizes := some [1, 1, 1, 1] }

/-- A shell for the diamond graph: each command succeeds and creates its
target's file. -/
def sys_diamond : Sys :=
  { run := fun c fs =>
      if c = "make_a" then (0, ("A", 10) :: fs)
      else if c = "make_b" then (0, ("B", 10) :: fs)
      else if c = "make_c" then (0, ("C", 10) :: fs)
      else if c = "make_d" then (0, ("D", 10) :: fs)
      else (1, fs) }

/-- A state inside the scope of target `t`, which has the two declared
dependencies `a` and `b`. -/
def st_dep : XState :=
  { initState "" [] with
    current_scope := some "t",
    targets := some ["t"],
    depLists := some [some ["a", "b"]],
    depSizes := some [2] }

/-- A file system in which target `t` (mtime 5) is newer than its
dependency `d` (mtime 3): both exist and no rebuild is due. -/
def fs_fresh : FS := [("t", 5), ("d", 3)]

/-- The state `check_syntax` leaves behind for `prog_def`. -/
def st_def_parsed : XState :=
  match check_syn 99 (initState prog_def []) with
  | .ok (st, _) => st
  | .error _ => initState "" []

/-- The parser state just after `add_target "A"`, before the `{` of the
first target block is consumed. -/
def st_first : XState := { initState "" [] with targets := some ["A"] }

/-- A state whose target table is `["t"]` and whose file system holds the
plain file `plain`, for the unknown-target claim. -/
def st_plain : XState := { st_dep with fs := [("plain", 3)] }

/-- Buffers holding a single unquoted word of 253 resp. 254 bytes. -/
def buf253 : String := String.mk (List.replicate 253 'a') ++ "\n"

def buf254 : String := String.mk (List.replicate 254 'a') ++ "\n"

/-! ## Auxiliary lemmas -/

theorem strncmp_c_cons (x y : Char) (xs ys : List Char) (n : Nat) :
    strncmp_c (x :: xs) (y :: ys) (n + 1) =
      if x ≠ y then (x.toNat : Int) - (y.toNat : Int)
      else if x = '\x00' then 0
      else strncmp_c xs ys n := rfl

theorem cstrlen_of_no_nul (s : List Char) (h : '\x00' ∉ s) : cstrlen s = s.length := by
  induction s with
  | nil => rfl
  | cons a t ih =>
    have ha : a ≠ '\x00' := fun hc => h (hc ▸ List.mem_cons_self a t)
    have ht : '\x00' ∉ t := fun hm => h (List.mem_cons_of_mem a hm)
    simp [cstrlen, List.takeWhile_cons, ha, bne_iff_ne] at ih ⊢
    exact ih ht

theorem strncmp_c_self (a : List Char) (n : Nat) : strncmp_c a a n = 0 := by
  induction n generalizing a with
  | zero => rfl
  | succ n ih =>
    unfold strncmp_c
    by_cases h : a.headD '\x00' = '\x00' <;> simp [h, ih]

theorem char_toNat_inj {x y : Char} (h : x.toNat = y.toNat) : x = y :=
  Char.ext_iff.mpr (UInt32.ext_iff.mpr h)

theorem strncmp_c_zero_eq (a : List Char) : ∀ (b : List Char),
    '\x00' ∉ a → '\x00' ∉ b → a.length = b.length →
    strncmp_c a b b.length = 0 → a = b := by
  induction a with
  | nil =>
    intro b _ _ hlen _
    exact (List.length_eq_zero.mp hlen.symm).symm
  | cons x xs ih =>
    intro b ha hb hlen h0
    cases b with
    | nil => simp at hlen
    | cons y ys =>
      rw [List.length_cons, strncmp_c_cons] at h0
      by_cases hxy : x = y
      · subst hxy
        have hx0 : x ≠ '\x00' := fun hc => ha (hc ▸ List.mem_cons_self x xs)
        rw [if_neg (by simp), if_neg hx0] at h0
        have hxs : xs = ys :=
          ih ys (fun hm => ha (List.mem_cons_of_mem x hm))
            (fun hm => hb (List.mem_cons_of_mem x hm)) (by simpa using hlen) h0
        rw [hxs]
      · exfalso
        rw [if_pos hxy] at h0
        exact hxy (char_toNat_inj (by omega))

/-- The keyword comparison of `check_rule` accepts exactly the keyword
itself: equality of the NUL-free character lists. -/
theorem keyword_matches_iff (w k : List Char)
    (hw : '\x00' ∉ w) (hk : '\x00' ∉ k) :
    keyword_matches w k = true ↔ w = k := by
  unfold keyword_matches
  rw [cstrlen_of_no_nul w hw, cstrlen_of_no_nul k hk]
  constructor
  · intro h
    have h1 : strncmp_c w k k.length = 0 := by
      have := (Bool.and_eq_true _ _).mp h |>.1
      simpa using this
    have h2 : k.length = w.length := by
      have := (Bool.and_eq_true _ _).mp h |>.2
      simpa using this
    exact strncmp_c_zero_eq w k hw hk h2.symm h1
  · intro h
    subst h
    simp [strncmp_c_self]

theorem cAt_ne_nul_lt (buf : List Char) (i : Nat) (h : cAt buf i ≠ '\x00') :
    i < buf.length := by
  by_contra hge
  apply h
  unfold cAt
  rw [List.getD_eq_default]
  omega


/-! ## Claim theorems -/

set_option maxRecDepth 100000

/-- Claim C1: the spec says a fully successful run (every spawned command
exits 0 and the build target's file exists afterwards) exits with code 0.
The code disagrees: `ex_build_target` returns 1 on its success path, and
that value propagates through `execute_commands` and `parse_file` to
`main`'s return value.  On the minimal-build scenario the only command
`touchout` exits 0 under `sys_min`, the target file `out` exists at the
end, yet the process exit code is 1. -/
theorem c1_successful_run_exits_one :
    (xmk_run cfg_plain sys_min .posix 99 prog_min [("in", 1)]).toOption.map
      (fun x => (x.2, x.1.trace, file_exists x.1.fs "out")) =
      some (1, ["touchout"], true) ∧
    (sys_min.run "touchout" [("in", 1)]).1 = 0 := by
  decide

/-- Claim C2: the spec says `$(dep[N])` returns the N-th dependency and
that an out-of-range N is fatal.  In the code the digit-collecting store
in `get_dependency` is guarded by `dep_i_str_idx < strlen(dep_i_str)`
against the still-empty buffer, so no digit is ever stored and
`strtol("")` yields index 0: `$(dep[1])` returns dependency 0 (`"a"`
instead of `"b"`), and the out-of-range `$(dep[9])` also returns
dependency 0 instead of aborting. -/
theorem c2_dep_index_never_stored :
    get_dependency st_dep "$(dep[1])" = .ok ("a", st_dep) ∧
    get_dependency st_dep "$(dep[9])" = .ok ("a", st_dep) ∧
    (st_dep.depLists = some [some ["a", "b"]]) := by
  decide

/-- Claim C3: the spec's freshness rule (rebuild iff the dependency's
mtime is strictly greater, or a file is missing) is implemented by the
WIN32 `update_needed`, but the POSIX `update_needed` is a TODO stub that
returns `true` unconditionally: on a file system where both files exist
and the dependency is older, the POSIX path still reports that a rebuild
is needed. -/
theorem c3_posix_stub_always_rebuilds :
    update_needed .posix true fs_fresh "t" "d" = true ∧
    update_needed .win32 true fs_fresh "t" "d" = false ∧
    file_exists fs_fresh "t" = true ∧ file_exists fs_fresh "d" = true ∧
    mtime fs_fresh "d" = some 3 ∧ mtime fs_fresh "t" = some 5 := by
  decide

/-- Claim C4 (counterexample): the executor does not memoise targets, so
in the diamond graph (`A` depends on `B` and `C`, both of which depend on
`D`) the command list of the shared dependency `D` is issued twice in one
top-level invocation — refuting the claim that commands run at most once
per target. -/
theorem c4_counterexample :
    (execute_commands sys_diamond .posix false 10 st_diamond "A").toOption.map
      (fun x => x.2.2.trace) =
      some ["make_d", "make_b", "make_d", "make_c", "make_a"] := by
  decide

/-- Claim C4 (amended): the executor issues a target's command list once
per resolver visit that finds an update pending; without per-invocation
memoisation, a dependency shared by two dependents has its commands run
once per dependent.  In the diamond graph `D` is a declared dependency of
both `B` and `C` and its single command is spawned exactly twice. -/
theorem c4_amended_once_per_visit :
    (execute_commands sys_diamond .posix false 10 st_diamond "A").toOption.map
      (fun x => x.2.2.trace.count "make_d") = some 2 ∧
    st_diamond.depLists = some [some ["B", "C"], some ["D"], some ["D"], some ["d.src"]] := by
  decide

/-- Claim C5 (counterexample): the spec says a word of exactly 254 bytes
tokenizes successfully.  The scan loop stops when `i` reaches 254 and the
following check `i >= LENGTHOF(word) - 1` then aborts, so a 254-byte word
is already fatal. -/
theorem c5_counterexample :
    get_word 9 (initState buf254 []) 0 =
      .error (.fatal "maximum word length has been exceeded") := by
  decide

/-- Claim C8 (counterexample): the spec claims the dependency and command
tables match the target table in length from the first block entry to the
end of parsing.  Parsing `target A { } target B` enters `A`'s block
(allocating both tables at length 1), then registers `B`; at the end of
parsing the target table has 2 entries while the dependency and command
tables still have 1. -/
theorem c8_counterexample :
    (check_syn 99 (initState prog_hdr [])).toOption.map
      (fun x => ((x.1.targets.getD []).length, (x.1.depSizes.getD []).length,
                 (x.1.cmdSizes.getD []).length, x.1.depLists.isSome)) =
      some (2, 1, 1, true) := by
  decide

/-- Claim C7: with `preprocess_only` set, `parse_file` prints the buffer
exactly as `check_syntax` left it (all define uses having been expanded in
place by the tokenizer) and returns 0 without invoking the executor: the
final state is the parser's state with the buffer appended to stdout, so
in particular the command trace is exactly the parser's (empty) trace. -/
theorem c7_preprocess_emits_and_stops (cfg : Config) (sys : Sys) (p : Platform)
    (fuel : Nat) (st st1 : XState) (r : Int)
    (hp : cfg.preprocess = true)
    (hcs : check_syn fuel st = .ok (st1, r)) :
    parse_file cfg sys p fuel st =
      .ok ({ st1 with out := st1.out ++ [buf_string st1.buffer] }, 0) := by
  unfold parse_file
  rw [hcs, hp]
  simp

/-- Witness for C7 on the concrete program `define A as bc / build $A`:
the emitted text is the fully define-inlined source and no command is ever
spawned (`sys_none` fails every command, and the trace stays empty). -/
theorem c7_preprocess_witness :
    parse_file cfg_pre sys_none .posix 99 (initState prog_def []) =
      .ok ({ st_def_parsed with
              out := st_def_parsed.out ++ [buf_string st_def_parsed.buffer] }, 0) ∧
    buf_string st_def_parsed.buffer = "define A as bc\nbuild bc\n" ∧
    st_def_parsed.trace = [] ∧ st_def_parsed.out = [] :=
  ⟨c7_preprocess_emits_and_stops cfg_pre sys_none .posix 99 (initState prog_def [])
      st_def_parsed 0 rfl (by decide),
   by decide, by decide, by decide⟩

/-- Claim C10: a name that is not in the target table but exists as a
file makes `execute_commands` return 0 without spawning anything, without
writing `*parent_update_pending` and without touching any state
(`cleanup()` is an immediate `return`). -/
theorem c10_unknown_target_existing_file (sys : Sys) (p : Platform) (quiet : Bool)
    (fuel : Nat) (st : XState) (target : String) (ts : List String)
    (hts : st.targets = some ts)
    (hmem : target ∉ ts)
    (hex : file_exists st.fs target = true) :
    execute_commands sys p quiet (fuel + 1) st target = .ok (0, none, st) := by
  have hidx : ts.indexOf? target = none :=
    List.indexOf?_eq_none_iff.mpr (fun x hx => by
      simp only [beq_iff_eq]
      exact fun h => hmem (h ▸ hx))
  unfold execute_commands target_exists
  rw [hts]
  simp only [hidx, hex]
  simp

/-- Witness for C10: `plain` is not among the targets `["t"]` but exists
on disk; the executor returns 0 untouched. -/
theorem c10_unknown_target_existing_file_witness :
    execute_commands sys_none .posix false 1 st_plain "plain" = .ok (0, none, st_plain) :=
  c10_unknown_target_existing_file sys_none .posix false 0 st_plain "plain" ["t"]
    (by decide) (by decide) (by decide)

/-- Claim C6: `keyword_matches` is the comparison applied at every KEYWORD
step of every rule in `check_rule` (`!strncmp(word, keyword, len) &&
len == strlen(word)`): a token matches if and only if it is
character-for-character equal to the keyword, so a token that merely has
the keyword as a proper prefix does not match. -/
theorem c6_keyword_step_exact_equality (w k : String)
    (hw : '\x00' ∉ w.data) (hk : '\x00' ∉ k.data) :
    keyword_matches w.data k.data = true ↔ w = k := by
  rw [keyword_matches_iff w.data k.data hw hk]
  constructor
  · intro h
    cases w
    cases k
    exact congrArg String.mk h
  · intro h
    rw [h]

/-- Witness for C6: the keyword `build` matches itself, and the proper
extension `buildx` does not match `build`. -/
theorem c6_keyword_step_exact_equality_witness :
    keyword_matches "build".data "build".data = true ∧
    keyword_matches "buildx".data "build".data = false :=
  ⟨(c6_keyword_step_exact_equality "build" "build" (by decide) (by decide)).mpr rfl,
   by decide⟩

theorem check_syn_go_zero (f : Nat) : ∀ (ps : ParseSt) (rc : RuleId) (ctrl : Ctrl)
    (st : XState) (from_ : Nat) (st1 : XState) (r : Int),
    check_syn_go f ps rc ctrl st from_ = .ok (st1, r) → r = 0 := by
  induction f with
  | zero =>
    intro ps rc ctrl st from_ st1 r h
    simp [check_syn_go] at h
  | succ f ih =>
    intro ps rc ctrl st from_ st1 r h
    unfold check_syn_go at h
    split at h
    · exact absurd h (by simp)
    · simp only [Except.ok.injEq, Prod.mk.injEq] at h
      omega
    · split at h
      · split at h
        · exact absurd h (by simp)
        · exact ih _ _ _ _ _ _ _ h
      · split at h
        · exact absurd h (by simp)
        · exact ih _ _ _ _ _ _ _ h

/-- A word that is not the rule's first keyword and is not `}` is rejected
by `check_rule` without any effect: every alternative recipe starts with a
KEYWORD step, the mismatch walks through all recipes, and the final reset
restores the (already zero) counters, leaving state, counters and parse
state untouched. -/
theorem check_rule_skip (rule : RuleId) (w : String) (nl : Bool) (ps : ParseSt)
    (ctrl : Ctrl) (st : XState)
    (hlvl : ctrl.recursion_level ≤ 1)
    (hs : idx2 ctrl.step_i ctrl.recursion_level = .ok 0)
    (hk : idx2 ctrl.keyword_i ctrl.recursion_level = .ok 0)
    (hr : idx2 ctrl.recipe_i ctrl.recursion_level = .ok 0)
    (hkm : keyword_matches w.data ((rule_keywords rule).headD "").data = false)
    (hbr : w ≠ "\x7d") :
    check_rule rule w nl ps ctrl st = .ok (false, .SEARCHING, ctrl, st) := by
  obtain ⟨⟨s0, s1⟩, ⟨k0, k1⟩, ⟨r0, r1⟩, lvl⟩ := ctrl
  interval_cases lvl <;>
    simp only [idx2, Except.ok.injEq] at hs hk hr <;>
    subst hs hk hr <;>
    cases rule <;>
    simp only [rule_keywords, List.headD_cons] at hkm <;>
    simp [check_rule, check_rule_go, rule_recipes, rule_keywords, idx2, set2,
      reset_level, Except.bind, bind, hkm, hbr]


/-- Specialisation of the keyword-equality characterisation to `String`s,
used to turn word/keyword inequalities into failed matches. -/
theorem c9_aux (w k : String) (hw : '\x00' ∉ w.data) (hk : '\x00' ∉ k.data) :
    keyword_matches w.data k.data = true ↔ w = k := by
  rw [keyword_matches_iff w.data k.data hw hk]
  constructor
  · intro h
    cases w
    cases k
    exact congrArg String.mk h
  · intro h
    rw [h]

/-- Claim C9: in the SEARCHING state, a word that is none of the five
rule-opening keywords (and not `}`, which pops a nesting level) is
silently discarded: every rule rejects it, the shared counters, the parse
state and the whole program state are left unchanged, no error is raised,
and the word is simply skipped; moreover `check_syntax` reports success
(0) on every run that completes, so such a word never turns into a parse
error. -/
theorem c9_unmatched_word_is_discarded (w : String) (nl : Bool) (ctrl : Ctrl)
    (st : XState) (f : Nat) (st0 st1 : XState) (r : Int)
    (hlvl : ctrl.recursion_level ≤ 1)
    (hs : idx2 ctrl.step_i ctrl.recursion_level = .ok 0)
    (hk : idx2 ctrl.keyword_i ctrl.recursion_level = .ok 0)
    (hr : idx2 ctrl.recipe_i ctrl.recursion_level = .ok 0)
    (hw0 : '\x00' ∉ w.data)
    (h1 : w ≠ "define") (h2 : w ≠ "build") (h3 : w ≠ "depends")
    (h4 : w ≠ "created") (h5 : w ≠ "target")
    (hbr : w ≠ "\x7d")
    (hrun : check_syn f st0 = .ok (st1, r)) :
    search_step rule_order w nl .SEARCHING ctrl st =
      .ok (none, .SEARCHING, ctrl, st) ∧ r = 0 := by
  have hkm : ∀ rule : RuleId,
      keyword_matches w.data ((rule_keywords rule).headD "").data = false := by
    intro rule
    cases hb : keyword_matches w.data ((rule_keywords rule).headD "").data
    · rfl
    · exfalso
      cases rule <;>
        simp only [rule_keywords, List.headD_cons] at hb <;>
        [exact h1 ((c9_aux w _ hw0 (by decide)).mp hb);
         exact h2 ((c9_aux w _ hw0 (by decide)).mp hb);
         exact h3 ((c9_aux w _ hw0 (by decide)).mp hb);
         exact h4 ((c9_aux w _ hw0 (by decide)).mp hb);
         exact h5 ((c9_aux w _ hw0 (by decide)).mp hb)]
  refine ⟨?_, check_syn_go_zero f .SEARCHING .DEFINE_AS ctrl0 st0 0 st1 r hrun⟩
  have e1 := check_rule_skip .DEFINE_AS w nl .SEARCHING ctrl st hlvl hs hk hr (hkm _) hbr
  have e2 := check_rule_skip .BUILD w nl .SEARCHING ctrl st hlvl hs hk hr (hkm _) hbr
  have e3 := check_rule_skip .DEPENDS_ON w nl .SEARCHING ctrl st hlvl hs hk hr (hkm _) hbr
  have e4 := check_rule_skip .CREATED_USING w nl .SEARCHING ctrl st hlvl hs hk hr (hkm _) hbr
  have e5 := check_rule_skip .TARGET w nl .SEARCHING ctrl st hlvl hs hk hr (hkm _) hbr
  simp [rule_order, search_step, e1, e2, e3, e4, e5]

/-- Witness for C9: the unrecognized top-level word `frobnicate` is
discarded without any state change from the initial parser state, and a
completed syntax check (here on the empty buffer) reports 0. -/
theorem c9_unmatched_word_is_discarded_witness :
    search_step rule_order "frobnicate" false .SEARCHING ctrl0 (initState "" []) =
      .ok (none, .SEARCHING, ctrl0, initState "" []) ∧ (0 : Int) = 0 :=
  c9_unmatched_word_is_discarded "frobnicate" false ctrl0 (initState "" []) 1
    (initState "" []) (initState "" []) 0 (by decide) rfl rfl rfl (by decide)
    (by decide) (by decide) (by decide) (by decide) (by decide) (by decide)
    (by decide)

theorem create_basic_tree_on_length (lists : Option (List (Option (List String))))
    (sizes : Option (List Nat)) (n : Nat) (hn : 0 < n)
    (hiff : lists.isSome = sizes.isSome) (h1 : lists = none → n = 1) :
    (create_basic_tree_on lists sizes n).1.map List.length = some n ∧
    (create_basic_tree_on lists sizes n).2.map List.length = some n := by
  match lists, sizes with
  | none, none =>
    have := h1 rfl
    subst this
    simp [create_basic_tree_on]
  | some ls, some ss =>
    constructor <;> simp [create_basic_tree_on] <;> omega
  | none, some _ => simp at hiff
  | some _, none => simp at hiff

/-- Claim C8 (amended): entering a target's block resizes both the
dependency table and the command table to exactly the target-table
length (the block-open handler reallocates them to `n_targets` slots and
clears the newest slot), so the three tables are aligned at every block
entry.  The allocation-consistency hypotheses hold of every state the
parser produces: the two arrays of each pair are allocated together, and
the first allocation happens at the first target's block. -/
theorem c8_amended_block_entry_aligns (st : XState) (ts : List String)
    (hts : st.targets = some ts) (hne : ts ≠ [])
    (hdi : st.depLists.isSome = st.depSizes.isSome)
    (hci : st.cmdLists.isSome = st.cmdSizes.isSome)
    (hd1 : st.depLists = none → ts.length = 1)
    (hc1 : st.cmdLists = none → ts.length = 1) :
    ∃ st', target_scope_block_opened st = .ok (.CHECKING, st') ∧
      st'.targets = some ts ∧
      st'.depLists.map List.length = some ts.length ∧
      st'.depSizes.map List.length = some ts.length ∧
      st'.cmdLists.map List.length = some ts.length ∧
      st'.cmdSizes.map List.length = some ts.length := by
  have hn : 0 < ts.length := List.length_pos.mpr hne
  have hne0 : ¬ ts.length = 0 := Nat.pos_iff_ne_zero.mp hn
  have hd := create_basic_tree_on_length st.depLists st.depSizes ts.length hn hdi hd1
  have hc := create_basic_tree_on_length st.cmdLists st.cmdSizes ts.length hn hci hc1
  simp only [target_scope_block_opened, create_basic_tree, hts, dif_neg hne0,
    Except.bind, bind]
  refine ⟨_, rfl, rfl, ?_, ?_, ?_, ?_⟩
  · exact hd.1
  · exact hd.2
  · exact hc.1
  · exact hc.2

/-- Witness for the amended C8: entering the first target's block from the
state where only `A` is registered leaves all three tables with one
entry. -/
theorem c8_amended_block_entry_aligns_witness :
    ∃ st', target_scope_block_opened st_first = .ok (.CHECKING, st') ∧
      st'.targets = some ["A"] ∧
      st'.depLists.map List.length = some 1 ∧
      st'.depSizes.map List.length = some 1 ∧
      st'.cmdLists.map List.length = some 1 ∧
      st'.cmdSizes.map List.length = some 1 :=
  c8_amended_block_entry_aligns st_first ["A"] rfl (by decide) rfl rfl
    (fun _ => rfl) (fun _ => rfl)

theorem takeWhile_ne_nul (l : List Char) (h : '\x00' ∉ l) :
    l.takeWhile (fun c => c != '\x00') = l := by
  induction l with
  | nil => rfl
  | cons a t ih =>
    have ha : a ≠ '\x00' := fun hc => h (hc ▸ List.mem_cons_self a t)
    have ht : '\x00' ∉ t := fun hm => h (List.mem_cons_of_mem a hm)
    simp [List.takeWhile_cons, bne_iff_ne, ha, ih ht]

/-- An unquoted scan over word characters followed by a delimiter collects
the whole word, provided the 254-byte budget is not exhausted. -/
theorem scan_go_complete (w : List Char) : ∀ (rest acc : List Char) (from_ i k : Nat),
    (∀ c ∈ w, c ∉ [' ', '\t', '\n', '\r']) →
    rest.headD '\x00' ∈ [' ', '\t', '\n', '\r'] →
    w.length ≤ k →
    scan_go false k (w ++ rest) from_ i acc =
      (acc ++ w, i + w.length, from_ + w.length) := by
  induction w with
  | nil =>
    intro rest acc from_ i k _ hstop _
    match k with
    | 0 => simp [scan_go]
    | k + 1 =>
      cases rest with
      | nil => simp at hstop
      | cons r rs =>
        simp only [List.headD_cons, List.mem_cons, List.not_mem_nil, or_false] at hstop
        simp only [List.nil_append, scan_go, List.headD_cons]
        rw [if_neg (by rcases hstop with h | h | h | h <;> simp [h])]
        simp
  | cons c w ih =>
    intro rest acc from_ i k hw hstop hk
    match k with
    | 0 => simp at hk
    | k + 1 =>
      have hc : c ∉ [' ', '\t', '\n', '\r'] := hw c (List.mem_cons_self c w)
      simp only [List.mem_cons, List.mem_singleton, not_or] at hc
      obtain ⟨h1, h2, h3, h4⟩ := hc
      simp only [List.cons_append, scan_go, List.headD_cons, List.tail_cons]
      rw [if_pos (by simp [h1, h2, h3, h4])]
      rw [ih rest (acc ++ [c]) (from_ + 1) (i + 1) k
        (fun x hx => hw x (List.mem_cons_of_mem c hx)) hstop (by simpa using hk)]
      simp [List.append_assoc]
      omega

/-- An unquoted scan over at least `k` word characters exhausts the
`k`-byte budget and stops with count `i + k`. -/
theorem scan_go_overflow (k : Nat) : ∀ (w rest acc : List Char) (from_ i : Nat),
    (∀ c ∈ w, c ∉ [' ', '\t', '\n', '\r']) →
    k ≤ w.length →
    scan_go false k (w ++ rest) from_ i acc =
      (acc ++ w.take k, i + k, from_ + k) := by
  induction k with
  | zero =>
    intro w rest acc from_ i _ _
    simp [scan_go]
  | succ k ih =>
    intro w rest acc from_ i hw hk
    match w with
    | [] => simp at hk
    | c :: w =>
      have hc : c ∉ [' ', '\t', '\n', '\r'] := hw c (List.mem_cons_self c w)
      simp only [List.mem_cons, List.mem_singleton, not_or] at hc
      obtain ⟨h1, h2, h3, h4⟩ := hc
      simp only [List.cons_append, scan_go, List.headD_cons, List.tail_cons]
      rw [if_pos (by simp [h1, h2, h3, h4])]
      rw [ih w rest (acc ++ [c]) (from_ + 1) (i + 1)
        (fun x hx => hw x (List.mem_cons_of_mem c hx)) (by simpa using hk)]
      simp [List.append_assoc]
      omega

/-- Claim C5 (amended): an unquoted, substitution-free word followed by a
newline tokenizes successfully when it has at most 253 bytes, returning
exactly that word; from 254 bytes on, the scan stops at the 254-byte
budget and the check `i >= LENGTHOF(word) - 1` raises the fatal lex
error — one byte below the boundary the spec claims. -/
theorem c5_amended_boundary (w rest : List Char) (st : XState) (f : Nat)
    (hw : ∀ c ∈ w, c ∉ [' ', '\t', '\n', '\r', '\x00', '\"', '#', '$'])
    (hbuf : st.buffer = w ++ '\n' :: rest)
    (hne : w ≠ []) :
    (w.length ≤ 253 →
      get_word (f + 1) st 0 =
        .ok (some (String.mk w, w.length, false), { st with line := st.line + 1 })) ∧
    (254 ≤ w.length →
      get_word (f + 1) st 0 =
        .error (.fatal "maximum word length has been exceeded")) := by
  match w, hne with
  | c :: w', _ =>
    have hc := hw c (List.mem_cons_self c w')
    simp only [List.mem_cons, List.not_mem_nil, or_false, not_or] at hc
    obtain ⟨hc1, hc2, hc3, hc4, hc5, hc6, hc7, hc8⟩ := hc
    have hw4 : ∀ x ∈ c :: w', x ∉ [' ', '\t', '\n', '\r'] := by
      intro x hx
      have := hw x hx
      simp only [List.mem_cons, List.not_mem_nil, or_false, not_or] at this ⊢
      exact ⟨this.1, this.2.1, this.2.2.1, this.2.2.2.1⟩
    have hnul : '\x00' ∉ c :: w' := by
      intro hx
      have := hw '\x00' hx
      simp at this
    have hskip : skip_ws st.buffer 0 st.line false false = (some 0, st.line, false) := by
      rw [hbuf]
      simp [skip_ws, skip_go, hc1, hc2, hc3, hc4, hc5, hc7]
    have hq : ¬ (cAt st.buffer 0 = '\"') := by
      rw [hbuf]
      simp [cAt, hc6]
    have hqd : (decide (cAt st.buffer 0 = '\"')) = false := by simp [hq]
    constructor
    · intro hlen
      have hscan : scan_word st.buffer false 0 0 [] =
          (c :: w', (c :: w').length, (c :: w').length) := by
        rw [hbuf]
        unfold scan_word
        rw [List.drop_zero]
        rw [scan_go_complete (c :: w') ('\n' :: rest) [] 0 0 254 hw4
          (by rw [List.headD_cons]; decide) (by omega)]
        simp
      have hch : cAt st.buffer (c :: w').length = '\n' := by
        rw [hbuf, cAt, List.getD_append_right _ _ _ _ (le_refl _)]
        simp
      simp only [get_word, hskip, hqd, if_neg hq, Bool.false_eq_true, if_false, hscan]
      rw [if_neg (by omega : ¬ (c :: w').length ≥ 254)]
      rw [hch]
      rw [takeWhile_ne_nul _ hnul]
      by_cases hlong : 1 < (c :: w').length
      · rw [if_pos (⟨rfl, hlong⟩ : (!false) = true ∧ 1 < (c :: w').length)]
        rw [if_neg (show ¬ (cAt (c :: w') 0 = '$') by simp [cAt, hc8])]
        simp
      · rw [if_neg (fun hcon => hlong hcon.2)]
        rw [if_neg (fun hcon => hc8 (by simpa using hcon.2))]
        simp
    · intro hlen
      have hscan : scan_word st.buffer false 0 0 [] =
          ((c :: w').take 254, 254, 254) := by
        rw [hbuf]
        unfold scan_word
        rw [List.drop_zero]
        rw [scan_go_overflow 254 (c :: w') ('\n' :: rest) [] 0 0 hw4 hlen]
        simp
      simp only [get_word, hskip, hqd, if_neg hq, Bool.false_eq_true, if_false, hscan]
      rw [if_pos (by omega : (254 : Nat) ≥ 254)]

/-- Witness for the amended C5 at the boundary: a 253-byte word succeeds
and is returned verbatim; a 254-byte word is fatal. -/
theorem c5_amended_boundary_witness :
    get_word 9 (initState buf253 []) 0 =
      .ok (some (String.mk (List.replicate 253 'a'), 253, false),
        { initState buf253 [] with line := 2 }) ∧
    get_word 9 (initState buf254 []) 0 =
      .error (.fatal "maximum word length has been exceeded") :=
  ⟨by
    have h := (c5_amended_boundary (List.replicate 253 'a') [] (initState buf253 []) 8
      (by decide) (by decide) (by decide)).1 (by decide)
    simpa using h,
   (c5_amended_boundary (List.replicate 254 'a') [] (initState buf254 []) 8
      (by decide) (by decide) (by decide)).2 (by decide)⟩
